import Mathlib

/-
Verification of the dfdx core tensor library (stack, pooling, reductions,
element-wise extrema, conversions, permute views, and the autograd tape)
against its natural-language specification.

Tensors are shallowly embedded: a tensor is a shape vector, a strides
vector, a physical data payload (list of rationals standing for the real
number line of f32/f64 values), and a unique id.  Fallible operations
(Rust assert panics as well as returned errors) are modelled as Option.
-/

namespace Dfdx

/-- Shallow embedding of dfdx Tensor (src/src/tensor/...): unique id,
shape, element-offset strides, and the physical storage payload. -/
structure DTensor where
  id : Nat
  shape : List Nat
  strides : List Nat
  data : List ℚ
deriving DecidableEq, Repr

/-- Product of the shape extents, Shape::num_elements in the source. -/
def num_elements (shape : List Nat) : Nat := shape.prod

/-- Row-major contiguous strides of a shape, Shape::strides in the source:
stride of axis i is the product of the extents of the axes after i. -/
def contiguous_strides : List Nat → List Nat
  | [] => []
  | _ :: tl => tl.prod :: contiguous_strides tl

/-- Physical offset addressed by a multi-index under a strides vector. -/
def offset_of (strides idx : List Nat) : Nat :=
  (List.zipWith (· * ·) strides idx).sum

/-- Logical read of a tensor at a multi-index: the payload element at the
stride-computed offset. -/
def logical_get (t : DTensor) (idx : List Nat) : Option ℚ :=
  t.data.get? (offset_of t.strides idx)

/-! ### Stack (src/src/tensor_ops/stack/cpu_kernel.rs and mod.rs) -/

/-- Embedding of StackKernel::forward for Cpu
(src/src/tensor_ops/stack/cpu_kernel.rs lines 9-49).  The kernel asserts
all strides equal the first tensor's strides (panic modelled as none),
prepends the new dim to the shape, sets the leading stride to the first
input's physical data length and copies the remaining strides from the
inputs, and concatenates the payloads in order.  The fresh unique_id is
threaded as a counter. -/
def stack_forward (uid : Nat) (inp : List DTensor) : Option DTensor :=
  match inp with
  | [] => none
  | t0 :: _ =>
    if inp.all (fun t => t.strides = t0.strides) then
      some { id := uid
             shape := inp.length :: t0.shape
             strides := t0.data.length :: t0.strides
             data := (inp.map (fun t => t.data)).flatten }
    else none

/-- Embedding of StackKernel::backward for Cpu
(src/src/tensor_ops/stack/cpu_kernel.rs lines 50-63): walk the input
gradient buffers in order, adding consecutive elements of grad_out into
each; the running offset advances by one per element written. -/
def stack_backward : List (List ℚ) → List ℚ → List (List ℚ)
  | [], _ => []
  | gi :: rest, go =>
      List.zipWith (· + ·) gi (go.take gi.length) ::
        stack_backward rest (go.drop gi.length)

/-- Embedding of TryStack::try_stack (src/src/tensor_ops/stack/mod.rs
lines 110-152): asserts the new dim is non-empty (panic as none), asserts
every shape equals the first tensor's shape (panic as none), then invokes
the kernel forward.  The tape bookkeeping is modelled separately. -/
def try_stack (uid : Nat) (items : List DTensor) : Option DTensor :=
  match items with
  | [] => none
  | t0 :: _ =>
    if items.all (fun t => t.shape = t0.shape) then
      stack_forward uid items
    else none

/-! ### 2-D pooling descriptor (src/src/tensor_ops/pool2d/mod.rs) -/

/-- Embedding of the Pool2DOp descriptor
(src/src/tensor_ops/pool2d/mod.rs lines 16-26). -/
structure Pool2DOp where
  kernel : Nat
  stride : Nat
  padding : Nat
  batch : Nat
  chan : Nat
  h_in : Nat
  h_out : Nat
  w_in : Nat
  w_out : Nat
deriving DecidableEq, Repr

/-- Embedding of Pool2DOp::new (src/src/tensor_ops/pool2d/mod.rs lines
29-41): output spatial extents are computed by integer arithmetic from
kernel, stride, padding and the input extents. -/
def Pool2DOp.new (k s p b c hin win : Nat) : Pool2DOp :=
  { kernel := k
    stride := s
    padding := p
    batch := b
    chan := c
    h_in := hin
    h_out := (hin + 2 * p - k) / s + 1
    w_in := win
    w_out := (win + 2 * p - k) / s + 1 }

/-! ### Max / min reduction kernels

The CPU kernels (src/src/tensor_ops/max_to/cpu_kernel.rs,
src/src/tensor_ops/min_to/cpu_kernel.rs) are not part of this source
slice; they are modelled from the spec, and their backward tie rule is
pinned by the tests in src/src/tensor_ops/max_to/mod.rs and
src/src/tensor_ops/min_to/mod.rs.  A reduction acts slice-by-slice, so
the model works on one slice (a list of elements). -/

/-- Maximum of a slice, folding from the first element. -/
def max_of_slice : List ℚ → ℚ
  | [] => 0
  | x :: xs => xs.foldl max x

/-- Minimum of a slice, folding from the first element. -/
def min_of_slice : List ℚ → ℚ
  | [] => 0
  | x :: xs => xs.foldl min x

/-- Modelled from the spec: the claimed tied-gradient-split rule for the
max reduction backward — if k input positions tie for the extremum within
a slice, each receives grad_out / k (spec section 4.2, Max / Min
reduction).  Written to compare against the behaviour the in-tree tests
assert. -/
def tied_split_backward (slice : List ℚ) (gout : ℚ) : List ℚ :=
  let m := max_of_slice slice
  let k := (slice.filter (fun x => decide (x = m))).length
  slice.map (fun x => if x = m then gout / (k : ℚ) else 0)

/-- Modelled from the spec (max reduction backward, with the tie rule
amended to what the in-tree tests test_max_axis_0_2d and
test_max_axis_1_2d assert): every position equal to the slice maximum
receives the full grad_out, positions below it receive 0. -/
def max_reduce_backward_row (slice : List ℚ) (gout : ℚ) : List ℚ :=
  slice.map (fun x => if x = max_of_slice slice then gout else 0)

/-- Modelled from the spec (min reduction backward, tie rule amended per
the in-tree tests test_min_axis_0_2d and test_min_axis_1_2d): every
position equal to the slice minimum receives the full grad_out. -/
def min_reduce_backward_row (slice : List ℚ) (gout : ℚ) : List ℚ :=
  slice.map (fun x => if x = min_of_slice slice then gout else 0)

/-! ### Signed zeros

Reduction extrema distinguish -0.0 from +0.0.  Rationals have a single
zero, so the float values appearing in the negative-zero tests are
embedded as a rational together with a negative-zero marker: FQ.negZero
is -0.0 and FQ.num q is any other value (FQ.num 0 is +0.0). -/

/-- Rational with a distinguished negative zero, embedding the f32 values
exercised by test_max_negative_zero / test_min_negative_zero. -/
inductive FQ where
  | negZero : FQ
  | num : ℚ → FQ
deriving DecidableEq, Repr

/-- Numeric value of an FQ; both zeros have value 0. -/
def FQ.val : FQ → ℚ
  | .negZero => 0
  | .num q => q

/-- True exactly on the negative zero. -/
def FQ.isNegZero : FQ → Bool
  | .negZero => true
  | .num _ => false

/-- Modelled from the spec: the total order used by max/min forward
treats -0 < +0 (spec section 4.2, Max / Min reduction); on distinct
numeric values it is the numeric order. -/
def FQ.ltb (a b : FQ) : Bool :=
  decide (a.val < b.val) ||
    (decide (a.val = b.val) && a.isNegZero && !b.isNegZero)

/-- Modelled from the spec: IEEE numeric equality, under which
-0.0 = +0.0; this is the comparison the backward uses to find the
positions attaining the extremum. -/
def FQ.numEq (a b : FQ) : Bool := decide (a.val = b.val)

/-- Binary maximum under the total order with -0 < +0. -/
def fmax (a b : FQ) : FQ := if FQ.ltb a b then b else a

/-- Binary minimum under the total order with -0 < +0. -/
def fmin (a b : FQ) : FQ := if FQ.ltb b a then b else a

/-- Maximum of a slice of signed-zero values. -/
def max_of_slice_fq : List FQ → FQ
  | [] => .num 0
  | x :: xs => xs.foldl fmax x

/-- Minimum of a slice of signed-zero values. -/
def min_of_slice_fq : List FQ → FQ
  | [] => .num 0
  | x :: xs => xs.foldl fmin x

/-- Modelled from the spec (max reduction backward over signed-zero
values): positions numerically equal to the slice maximum receive the
full grad_out, as the in-tree test test_max_negative_zero asserts. -/
def max_reduce_backward_row_fq (slice : List FQ) (gout : ℚ) : List ℚ :=
  slice.map (fun x => if x.numEq (max_of_slice_fq slice) then gout else 0)

/-- Modelled from the spec (min reduction backward over signed-zero
values): positions numerically equal to the slice minimum receive the
full grad_out, as the in-tree test test_min_negative_zero asserts. -/
def min_reduce_backward_row_fq (slice : List FQ) (gout : ℚ) : List ℚ :=
  slice.map (fun x => if x.numEq (min_of_slice_fq slice) then gout else 0)

/-! ### Element-wise maximum (src/src/tensor_ops/maximum/mod.rs)

The driver try_maximum is in src (it calls the generic binary-op
skeleton); the cpu kernel is not, so the per-element derivative is
modelled from the spec: ties split the gradient 0.5/0.5. -/

/-- Forward of the element-wise binary maximum. -/
def maximum_forward (a b : ℚ) : ℚ := max a b

/-- Modelled from the spec: derivative of maximum with respect to the
left operand — 1 where the left operand wins, 0 where it loses, 1/2 on
ties (spec section 4.2, Element-wise binary). -/
def maximum_backward_lhs (a b gout : ℚ) : ℚ :=
  if b < a then gout else if a < b then 0 else gout / 2

/-- Modelled from the spec: derivative of maximum with respect to the
right operand — mirror image of the left derivative. -/
def maximum_backward_rhs (a b gout : ℚ) : ℚ :=
  if a < b then gout else if b < a then 0 else gout / 2

/-- Element-wise application of a binary function over 2-D arrays. -/
def grid_zip (f : ℚ → ℚ → ℚ) (a b : List (List ℚ)) : List (List ℚ) :=
  List.zipWith (fun ra rb => List.zipWith f ra rb) a b

/-! ### 2-D max/min pooling forward and backward

The pooling CPU kernels (src/src/tensor_ops/pool2d/cpu_kernel.rs) are
not part of this source slice; forward and backward are modelled from
the spec (section 4.2, 2-D pooling), with the tie rule pinned by the
in-tree tests test_pool2d_3d_max2d_eq_grads and
test_pool2d_3d_min2d_eq_grads.  One channel is one 2-D grid. -/

/-- Read a grid cell at possibly-negative (padded) coordinates; none
outside the input — padding never participates in max/min windows. -/
def cell_at (grid : List (List ℚ)) (i j : Int) : Option ℚ :=
  if 0 ≤ i ∧ 0 ≤ j then
    (grid.get? i.toNat).bind (fun row => row.get? j.toNat)
  else none

/-- In-bounds values of the K×K pooling window anchored at output
position (oh, ow) with stride s and padding p. -/
def window_vals (grid : List (List ℚ)) (k s p oh ow : Nat) : List ℚ :=
  ((List.range k).map (fun dh =>
    (List.range k).filterMap (fun dw =>
      cell_at grid ((oh * s + dh : Int) - p) ((ow * s + dw : Int) - p)))).flatten

/-- Modelled from the spec: pooling forward — per output position the
extremum of the in-bounds window values. -/
def pool2d_forward (ext : List ℚ → ℚ) (grid : List (List ℚ))
    (k s p hout wout : Nat) : List (List ℚ) :=
  (List.range hout).map (fun oh =>
    (List.range wout).map (fun ow => ext (window_vals grid k s p oh ow)))

/-- Modelled from the spec (tie rule amended per the in-tree tests):
gradient accumulated into input cell (i, j) — for every output window
containing the cell whose extremum equals the cell's value, the full
grad_out of that window is added. -/
def pool2d_backward_cell (ext : List ℚ → ℚ) (grid : List (List ℚ))
    (k s p hout wout : Nat) (gout : List (List ℚ)) (i j : Nat) : ℚ :=
  (List.range hout).foldl (fun acc (oh : Nat) =>
    (List.range wout).foldl (fun acc2 (ow : Nat) =>
      (List.range k).foldl (fun acc3 (dh : Nat) =>
        (List.range k).foldl (fun acc4 (dw : Nat) =>
          if (oh * s + dh : Int) - p = i ∧ (ow * s + dw : Int) - p = j ∧
              cell_at grid i j = some (ext (window_vals grid k s p oh ow))
          then acc4 + (gout.getD oh []).getD ow 0
          else acc4) acc3) acc2) acc) 0

/-- Full input-gradient grid of a 2-D pooling backward. -/
def pool2d_backward (ext : List ℚ → ℚ) (grid : List (List ℚ))
    (k s p hout wout h w : Nat) (gout : List (List ℚ)) : List (List ℚ) :=
  (List.range h).map (fun i =>
    (List.range w).map (fun j =>
      pool2d_backward_cell ext grid k s p hout wout gout i j))

/-! ### Host/device conversions (src/src/tensor/cuda/allocate.rs) -/

/-- Embedding of Cuda::tensor_from_host_buf
(src/src/tensor/cuda/allocate.rs lines 20-26): a fresh id, the
contiguous strides of the shape, payload copied from the host buffer. -/
def tensor_from_host_buf (uid : Nat) (shape : List Nat) (buf : List ℚ) : DTensor :=
  { id := uid, shape := shape, strides := contiguous_strides shape, data := buf }

/-- Embedding of TensorFromVec::try_tensor_from_vec
(src/src/tensor/cuda/allocate.rs lines 137-151): errors with
WrongNumElements unless the host vector's length equals the product of
the shape's extents. -/
def try_tensor_from_vec (uid : Nat) (src : List ℚ) (shape : List Nat) :
    Option DTensor :=
  if src.length ≠ num_elements shape then none
  else some (tensor_from_host_buf uid shape src)

/-- Embedding of CopySlice::copy_from (src/src/tensor/cuda/allocate.rs
lines 113-123): asserts — panic modelled as none — that the slice length
equals the tensor's physical storage length, then overwrites the
payload. -/
def copy_from (dst : DTensor) (src : List ℚ) : Option DTensor :=
  if dst.data.length = src.length then some { dst with data := src } else none

/-- Embedding of CopySlice::copy_into (src/src/tensor/cuda/allocate.rs
lines 124-134): asserts that the destination slice length equals the
tensor's physical storage length, then copies the payload out. -/
def copy_into (src : DTensor) (dst : List ℚ) : Option (List ℚ) :=
  if src.data.length = dst.length then some src.data else none

/-! ### Permute as a view (src/src/tensor_ops/permute_to/cuda_kernel.rs) -/

/-- View tensor for the permute kernel: the storage field is the handle
of the reference-counted device buffer, so two tensors alias exactly
when their storage handles are equal (Arc::clone copies the handle,
never the buffer). -/
structure VTensor where
  id : Nat
  storage : Nat
  shape : List Nat
  strides : List Nat
deriving DecidableEq, Repr

/-- Modelled from the spec: applying a permutation of axis indices to a
per-axis vector (shape or strides).  Shape::permuted and
Shape::permute_strides live outside this source slice; spec section 3.1
says permute is a bijection on axis indices and permute_strides applies
the same permutation to the strides vector. -/
def apply_perm (axes v : List Nat) : List Nat :=
  axes.map (fun i => v.getD i 0)

/-- Embedding of PermuteKernel::forward for Cuda
(src/src/tensor_ops/permute_to/cuda_kernel.rs lines 28-43): a fresh
unique id, the storage handle cloned (aliased, nothing copied), and the
shape and strides with the permutation applied; the monotonic unique_id
counter is threaded explicitly. -/
def permute_forward (uid : Nat) (inp : VTensor) (axes : List Nat) :
    VTensor × Nat :=
  ({ id := uid
     storage := inp.storage
     shape := apply_perm axes inp.shape
     strides := apply_perm axes inp.strides }, uid + 1)

/-! ### Autograd tape (spec sections 3.4 and 4.1)

The gradients/tape module is not part of this source slice; the tape is
modelled from the spec: an Owned tape holds backward closures appended
in forward order plus an identity-keyed gradient map, and backward
replays the closures in reverse.  The op drivers (try_sum, try_max,
try_min, try_pool2d, try_stack) are in src and each calls
try_alloc_grad on its inputs and output and add_backward_op exactly
once. -/

/-- Identity-keyed gradient map: tensor id to gradient buffer. -/
abbrev GradMap := List (Nat × List ℚ)

/-- Modelled from the spec: gradient buffers are created lazily and
default to zero, sized by the owning tensor's physical element count
(spec section 3.4). -/
def alloc_grad (g : GradMap) (id len : Nat) : GradMap :=
  if (List.lookup id g).isSome then g else (id, List.replicate len 0) :: g

/-- Pointwise addition of a delta into the buffer of one id. -/
def add_into (g : GradMap) (id : Nat) (delta : List ℚ) : GradMap :=
  g.map (fun e => if e.1 = id then (e.1, List.zipWith (· + ·) e.2 delta) else e)

/-- Replacement of the buffer of one id. -/
def set_grad (g : GradMap) (id : Nat) (buf : List ℚ) : GradMap :=
  g.map (fun e => if e.1 = id then (e.1, buf) else e)

/-- Modelled from the spec: the Owned tape variant — backward closures
in forward (append) order, each tagged with the id of the op output it
consumes, together with the gradient map. -/
structure Tape where
  ops : List (Nat × (GradMap → GradMap))
  grads : GradMap

/-- Modelled from the spec: add_backward_op appends one closure at the
end of the list (forward order). -/
def add_backward_op (t : Tape) (tag : Nat) (f : GradMap → GradMap) : Tape :=
  { t with ops := t.ops ++ [(tag, f)] }

/-- Modelled from the spec: try_alloc_grad lazily allocates the zeroed
gradient slot of a tensor, keyed by its id and sized by its physical
element count. -/
def try_alloc_grad (t : Tape) (x : DTensor) : Tape :=
  { t with grads := alloc_grad t.grads x.id x.data.length }

/-- Modelled from the spec: backward executes the recorded closures in
reverse (LIFO) order over the gradient map, also returning the trace of
op tags in execution order. -/
def backward_run (t : Tape) : GradMap × List Nat :=
  t.ops.reverse.foldl (fun acc op => (op.2 acc.1, acc.2 ++ [op.1])) (t.grads, [])

/-- Forward-pass state: the monotonic unique-id counter and the tape. -/
structure AutoState where
  uid : Nat
  tape : Tape

/-- Closure appended by the reduction drivers: broadcast the output
gradient back across the reduced axes into the input gradient (spec
section 4.2, reductions reduce here to a scalar). -/
def reduce_closure (inpId : Nat) (len outId : Nat) (g : GradMap) : GradMap :=
  match List.lookup outId g with
  | none => g
  | some go => add_into g inpId (List.replicate len (go.getD 0 0))

/-- Embedding of the driver skeleton shared by try_sum, try_max and
try_min (src/src/tensor_ops/sum_to/mod.rs lines 60-77 and the identical
max_to / min_to drivers): split the tape off the input, run the kernel
forward producing a fresh output, preallocate the gradient slots of the
input and the output, then append exactly one backward closure. -/
def reduce_op_driver (kfwd : List ℚ → ℚ) (inp : DTensor) (st : AutoState) :
    DTensor × AutoState :=
  let out : DTensor :=
    { id := st.uid, shape := [], strides := [], data := [kfwd inp.data] }
  let t1 := try_alloc_grad st.tape inp
  let t2 := try_alloc_grad t1 out
  let t3 := add_backward_op t2 out.id (reduce_closure inp.id inp.data.length out.id)
  (out, { uid := st.uid + 1, tape := t3 })

/-- Closure appended by the unary driver: chain rule through the
pointwise derivative d at the captured input. -/
def unary_closure (d : ℚ → ℚ) (inp : DTensor) (outId : Nat) (g : GradMap) :
    GradMap :=
  match List.lookup outId g with
  | none => g
  | some go => add_into g inp.id (List.zipWith (fun x gy => d x * gy) inp.data go)

/-- Modelled from the spec: the unary-op driver (spec section 4.1) —
same shape output from the pointwise kernel, gradient slots of input
and output preallocated, exactly one closure appended. -/
def unary_op_driver (f d : ℚ → ℚ) (inp : DTensor) (st : AutoState) :
    DTensor × AutoState :=
  let out : DTensor :=
    { id := st.uid, shape := inp.shape, strides := inp.strides
      data := inp.data.map f }
  let t1 := try_alloc_grad st.tape inp
  let t2 := try_alloc_grad t1 out
  let t3 := add_backward_op t2 out.id (unary_closure d inp out.id)
  (out, { uid := st.uid + 1, tape := t3 })

/-- Closure appended by the binary driver: both operand gradients
updated from the captured operands through the two partial
derivatives. -/
def binary_closure (dl dr : ℚ → ℚ → ℚ) (lhs rhs : DTensor) (outId : Nat)
    (g : GradMap) : GradMap :=
  match List.lookup outId g with
  | none => g
  | some go =>
    let g1 := add_into g lhs.id
      (List.zipWith (fun p gy => dl p.1 p.2 * gy) (lhs.data.zip rhs.data) go)
    add_into g1 rhs.id
      (List.zipWith (fun p gy => dr p.1 p.2 * gy) (lhs.data.zip rhs.data) go)

/-- Modelled from the spec: the binary-op driver (spec section 4.1, the
skeleton try_binary_op called by try_maximum) — tapes merged into one,
both operand gradient slots and the output slot preallocated, exactly
one closure appended. -/
def binary_op_driver (f : ℚ → ℚ → ℚ) (dl dr : ℚ → ℚ → ℚ)
    (lhs rhs : DTensor) (st : AutoState) : DTensor × AutoState :=
  let out : DTensor :=
    { id := st.uid, shape := lhs.shape, strides := lhs.strides
      data := List.zipWith f lhs.data rhs.data }
  let t1 := try_alloc_grad st.tape lhs
  let t2 := try_alloc_grad t1 rhs
  let t3 := try_alloc_grad t2 out
  let t4 := add_backward_op t3 out.id (binary_closure dl dr lhs rhs out.id)
  (out, { uid := st.uid + 1, tape := t4 })

/-- Closure appended by try_stack: split the output gradient into
consecutive slabs accumulated into the input gradient buffers via the
stack backward kernel. -/
def stack_closure (items : List DTensor) (outId : Nat) (g : GradMap) :
    GradMap :=
  match List.lookup outId g with
  | none => g
  | some go =>
    let bufs := items.map (fun t => (List.lookup t.id g).getD [])
    (items.zip (stack_backward bufs go)).foldl
      (fun acc p => set_grad acc p.1.id p.2) g

/-- Embedding of the tape bookkeeping of TryStack::try_stack
(src/src/tensor_ops/stack/mod.rs lines 110-152): gradient slots of
every input allocated, kernel forward, output slot allocated, then
exactly one backward closure appended. -/
def stack_op_driver (items : List DTensor) (st : AutoState) :
    Option (DTensor × AutoState) :=
  match try_stack st.uid items with
  | none => none
  | some out =>
    let t1 := items.foldl try_alloc_grad st.tape
    let t2 := try_alloc_grad t1 out
    let t3 := add_backward_op t2 out.id (stack_closure items out.id)
    some (out, { uid := st.uid + 1, tape := t3 })

/-- Closure appended by try_pool2d: the pooling backward kernel run on
the captured input and the output gradient (single channel grid). -/
def pool_closure (inp : DTensor) (op : Pool2DOp) (outId : Nat) (g : GradMap) :
    GradMap :=
  match List.lookup outId g with
  | none => g
  | some go =>
    add_into g inp.id
      ((pool2d_backward max_of_slice [inp.data] op.kernel op.stride op.padding
          op.h_out op.w_out 1 inp.data.length [go]).flatten)

/-- Embedding of the tape bookkeeping of try_pool2d
(src/src/tensor_ops/pool2d/mod.rs lines 113-131): gradient slots of
input and output preallocated, then exactly one backward closure
appended; the input is treated as one channel row. -/
def pool_op_driver (k s p : Nat) (inp : DTensor) (st : AutoState) :
    DTensor × AutoState :=
  let op := Pool2DOp.new k s p 1 1 1 inp.data.length
  let out : DTensor :=
    { id := st.uid, shape := [op.w_out], strides := [1]
      data := (pool2d_forward max_of_slice [inp.data] k s p op.h_out op.w_out).flatten }
  let t1 := try_alloc_grad st.tape inp
  let t2 := try_alloc_grad t1 out
  let t3 := add_backward_op t2 out.id (pool_closure inp op out.id)
  (out, { uid := st.uid + 1, tape := t3 })

/-- One forward-pass op application: the differentiable operations the
tape claim quantifies over (unary, binary, reduction, pooling, stack). -/
inductive OpApp where
  | unary (f d : ℚ → ℚ) (inp : DTensor)
  | binary (f : ℚ → ℚ → ℚ) (dl dr : ℚ → ℚ → ℚ) (lhs rhs : DTensor)
  | reduce_sum (inp : DTensor)
  | reduce_max (inp : DTensor)
  | reduce_min (inp : DTensor)
  | pool_max (k s p : Nat) (inp : DTensor)
  | stacked (items : List DTensor)

/-- Ids of the differentiable inputs of an op application. -/
def OpApp.input_ids : OpApp → List Nat
  | .unary _ _ inp => [inp.id]
  | .binary _ _ _ lhs rhs => [lhs.id, rhs.id]
  | .reduce_sum inp => [inp.id]
  | .reduce_max inp => [inp.id]
  | .reduce_min inp => [inp.id]
  | .pool_max _ _ _ inp => [inp.id]
  | .stacked items => items.map (fun t => t.id)

/-- Dispatch of one op application through the corresponding driver;
none models the panics of the failing ops. -/
def apply_op (a : OpApp) (st : AutoState) : Option (DTensor × AutoState) :=
  match a with
  | .unary f d inp => some (unary_op_driver f d inp st)
  | .binary f dl dr lhs rhs => some (binary_op_driver f dl dr lhs rhs st)
  | .reduce_sum inp => some (reduce_op_driver (fun l => l.sum) inp st)
  | .reduce_max inp => some (reduce_op_driver max_of_slice inp st)
  | .reduce_min inp => some (reduce_op_driver min_of_slice inp st)
  | .pool_max k s p inp => some (pool_op_driver k s p inp st)
  | .stacked items => stack_op_driver items st

/-- Sequential forward execution of a program of op applications. -/
def apply_prog : List OpApp → AutoState → Option AutoState
  | [], st => some st
  | a :: rest, st =>
    match apply_op a st with
    | none => none
    | some (_, st2) => apply_prog rest st2

/-- Tags (output ids) of the closures on a tape, in append order. -/
def op_tags (t : Tape) : List Nat := t.ops.map Prod.fst

/-! ### Stacking broadcast views (src/src/tensor_ops/stack test
test_stack_with_all_broadcasted)

The scenario of the in-tree test: two length-3 vectors are broadcast to
shape (4, 3) with a stride-0 leading axis, stacked, and a mean-of-f loss
is taken; the leaf gradients must coincide with those of stacking the
unbroadcast vectors under the same loss. -/

/-- All multi-indices of a shape, in row-major order. -/
def enum_idx : List Nat → List (List Nat)
  | [] => [[]]
  | n :: rest =>
    ((List.range n).map (fun i => (enum_idx rest).map (fun idx => i :: idx))).flatten

/-- Modelled from the spec: the gradient that the stride-aware backward
accumulates into each physical slot of a tensor when the loss is the
mean of f over its logical elements — every logical position contributes
d(value) / N into the physical slot it maps to, so a slot replicated by
stride-0 axes receives one contribution per logical position mapping to
it (spec section 4.2, Element-wise unary; mean is sum divided by the
logical element count N). -/
def mean_f_phys_grad (d : ℚ → ℚ) (t : DTensor) : List ℚ :=
  (List.range t.data.length).map (fun s =>
    (((enum_idx t.shape).filter
        (fun idx => decide (offset_of t.strides idx = s))).length : ℚ) *
      d (t.data.getD s 0) / (num_elements t.shape : ℚ))

/-- Broadcast of a length-3 vector to shape (4, 3): a pure view with a
stride-0 leading axis sharing the same 3-element payload (spec sections
3.1 and 4.2, Broadcast). -/
def bcast43 (uid : Nat) (v : List ℚ) : DTensor :=
  { id := uid, shape := [4, 3], strides := [0, 1], data := v }

/-- Plain (contiguous) length-3 vector tensor. -/
def plain3 (uid : Nat) (v : List ℚ) : DTensor :=
  { id := uid, shape := [3], strides := [1], data := v }

/-- Leaf gradients of stacking the two (4, 3) broadcast views under a
mean-of-f loss: the stack cpu kernel forward, the modelled stride-aware
mean-of-f gradient of the stacked output, and the stack cpu kernel
backward into zeroed view buffers; the broadcast backward then adds each
view's physical buffer into its leaf's identically-sized buffer, an
identity step. -/
def bcast_stack_leaf_grads (d : ℚ → ℚ) (x y : List ℚ) : List (List ℚ) :=
  match stack_forward 100 [bcast43 0 x, bcast43 1 y] with
  | none => []
  | some out =>
    stack_backward [List.replicate x.length 0, List.replicate y.length 0]
      (mean_f_phys_grad d out)

/-- Leaf gradients of stacking the two unbroadcast length-3 vectors
under the same mean-of-f loss. -/
def plain_stack_leaf_grads (d : ℚ → ℚ) (x y : List ℚ) : List (List ℚ) :=
  match stack_forward 100 [plain3 0 x, plain3 1 y] with
  | none => []
  | some out =>
    stack_backward [List.replicate x.length 0, List.replicate y.length 0]
      (mean_f_phys_grad d out)

/-- Broadcast view with shape (2, 3), a stride-0 leading axis and a
3-element physical payload, as produced by broadcasting a length-3
vector (spec sections 3.1 and 4.2, Broadcast). -/
def bcast_view23 : DTensor :=
  { id := 7, shape := [2, 3], strides := [0, 1], data := [1, 2, 3] }

/-! ## Theorems -/

/-- Claim C1, counterexample.  The claimed rule — k tied positions each
receive grad_out / k — contradicts the behaviour the in-tree test
test_max_axis_1_2d (src/src/tensor_ops/max_to/mod.rs lines 101-109)
asserts: for the input row [1, 2, 2] with grad_out 1 the test demands
the gradient row [0, 1, 1], while the claimed rule yields [0, 1/2, 1/2].
The full-gradient model reproduces every row the test asserts; the
tied-split rule does not. -/
theorem C1_counterexample_ties_get_full_grad_out :
    tied_split_backward [1, 2, 2] 1 = [0, 1/2, 1/2] ∧
    [[(1 : ℚ), 2, 2], [3, -2, 2]].map (fun row => max_reduce_backward_row row 1)
      = [[0, 1, 1], [1, 0, 0]] ∧
    tied_split_backward [1, 2, 2] 1 ≠ max_reduce_backward_row [1, 2, 2] 1 := by
  with_unfolding_all decide

/-- Claim C1, amended: when k input positions within one slice (or one
pooling window) tie for the extremum, the backward pass gives each tied
position the full grad_out (not grad_out / k).  First conjunct: any
position attaining the slice maximum receives exactly grad_out.
Remaining conjuncts: the full-gradient models reproduce the gradients
asserted by the in-tree tests test_max_axis_1_2d, test_min_axis_1_2d,
test_pool2d_3d_max2d_eq_grads and test_pool2d_3d_min2d_eq_grads
(the latter two with their forward outputs). -/
theorem C1_amended_ties_receive_full_grad_out :
    (∀ (slice : List ℚ) (g : ℚ) (i : Nat), i < slice.length →
        slice.getD i 0 = max_of_slice slice →
        (max_reduce_backward_row slice g).getD i 0 = g) ∧
    (∀ (slice : List ℚ) (g : ℚ) (i : Nat), i < slice.length →
        slice.getD i 0 = min_of_slice slice →
        (min_reduce_backward_row slice g).getD i 0 = g) ∧
    [[(1 : ℚ), 2, 2], [3, -2, 2]].map (fun row => max_reduce_backward_row row 1)
      = [[0, 1, 1], [1, 0, 0]] ∧
    [[(1 : ℚ), 1, 2], [3, -2, 2]].map (fun row => min_reduce_backward_row row 1)
      = [[1, 1, 0], [0, 1, 0]] ∧
    pool2d_forward max_of_slice [[1, 1, 1/2, 1/5], [1/5, 1/5, 1/2, 6/5]]
        2 1 0 1 3 = [[1, 1, 6/5]] ∧
    pool2d_backward max_of_slice [[1, 1, 1/2, 1/5], [1/5, 1/5, 1/2, 6/5]]
        2 1 0 1 3 2 4 [[1, 1, 1]] = [[1, 2, 0, 0], [0, 0, 0, 1]] ∧
    pool2d_forward min_of_slice [[1, 1, 1/2, 1/5], [1/5, 1/5, 1/2, 6/5]]
        2 1 0 1 3 = [[1/5, 1/5, 1/5]] ∧
    pool2d_backward min_of_slice [[1, 1, 1/2, 1/5], [1/5, 1/5, 1/2, 6/5]]
        2 1 0 1 3 2 4 [[1, 1, 1]] = [[0, 0, 0, 1], [1, 2, 0, 0]] := by
  refine ⟨?_, ?_, by with_unfolding_all decide, by with_unfolding_all decide,
    by with_unfolding_all decide, by with_unfolding_all decide,
    by with_unfolding_all decide, by with_unfolding_all decide⟩
  · intro slice g i hi hmax
    simp only [max_reduce_backward_row]
    rw [List.getD_eq_getElem?_getD, List.getElem?_map, List.getElem?_eq_getElem hi]
    rw [List.getD_eq_getElem?_getD, List.getElem?_eq_getElem hi] at hmax
    simp only [Option.map_some, Option.getD_some] at hmax ⊢
    simp [hmax]
  · intro slice g i hi hmin
    simp only [min_reduce_backward_row]
    rw [List.getD_eq_getElem?_getD, List.getElem?_map, List.getElem?_eq_getElem hi]
    rw [List.getD_eq_getElem?_getD, List.getElem?_eq_getElem hi] at hmin
    simp only [Option.map_some, Option.getD_some] at hmin ⊢
    simp [hmin]

/-- Claim C1, amended, witness: the second tied position of the test row
[1, 2, 2] receives the full grad_out 1. -/
theorem C1_amended_witness :
    (1 : Nat) < ([(1 : ℚ), 2, 2]).length ∧
    (max_reduce_backward_row [1, 2, 2] 1).getD 1 0 = 1 :=
  ⟨by decide,
    C1_amended_ties_receive_full_grad_out.1 [1, 2, 2] 1 1 (by decide) (by decide)⟩

/-- Claim C2: max and min reductions order signed zeros as -0 < +0
(max(-0, 0) is +0 and min(-0, 0) is -0), and on the input rows of
test_min_negative_zero (src/src/tensor_ops/min_to/mod.rs lines 123-135)
the min reduction over axis 1 returns [-0, -0, -1, -1] while the
backward from sum produces the gradient [[1, 1], [1, 1], [1, 0], [1, 0]]
(tied positions compared by numeric equality, under which -0 = +0). -/
theorem C2_negative_zero_ordering :
    fmax FQ.negZero (FQ.num 0) = FQ.num 0 ∧
    fmin FQ.negZero (FQ.num 0) = FQ.negZero ∧
    [[FQ.negZero, FQ.num 0], [FQ.num 0, FQ.negZero],
     [FQ.num (-1), FQ.negZero], [FQ.num (-1), FQ.num 0]].map min_of_slice_fq
      = [FQ.negZero, FQ.negZero, FQ.num (-1), FQ.num (-1)] ∧
    [[FQ.negZero, FQ.num 0], [FQ.num 0, FQ.negZero],
     [FQ.num (-1), FQ.negZero], [FQ.num (-1), FQ.num 0]].map
        (fun row => min_reduce_backward_row_fq row 1)
      = [[1, 1], [1, 1], [1, 0], [1, 0]] := by
  decide

/-- Claim C3: for the element-wise binary maximum, equal operands split
the backward gradient one half to each side; on the operands of
test_maximum (src/src/tensor_ops/maximum/mod.rs lines 54-66) the forward
returns [[0, 0, 1], [3, 4, 5]] and the backward of sum gives
grad_a = [[0, 1/2, 1], [1/2, 1, 0]] and
grad_b = [[1, 1/2, 0], [1/2, 0, 1]]. -/
theorem C3_elementwise_maximum_tie_split :
    (∀ a g : ℚ, maximum_backward_lhs a a g = g / 2 ∧
        maximum_backward_rhs a a g = g / 2) ∧
    grid_zip maximum_forward [[-1, 0, 1], [3, 4, -5]] [[0, 0, -1], [3, -4, 5]]
      = [[0, 0, 1], [3, 4, 5]] ∧
    grid_zip (fun a b => maximum_backward_lhs a b 1)
        [[-1, 0, 1], [3, 4, -5]] [[0, 0, -1], [3, -4, 5]]
      = [[0, 1/2, 1], [1/2, 1, 0]] ∧
    grid_zip (fun a b => maximum_backward_rhs a b 1)
        [[-1, 0, 1], [3, 4, -5]] [[0, 0, -1], [3, -4, 5]]
      = [[1, 1/2, 0], [1/2, 0, 1]] := by
  refine ⟨?_, by with_unfolding_all decide, by with_unfolding_all decide,
    by with_unfolding_all decide⟩
  intro a g
  constructor <;> simp [maximum_backward_lhs, maximum_backward_rhs]

/-- Claim C4: every 2-D pooling descriptor built with kernel k, stride
s and padding p on spatial extents (h, w) has output extents
h_out = (h + 2p - k)/s + 1 and w_out = (w + 2p - k)/s + 1 under integer
division; instantiated at the test test_pool2d_3d_max2d_eq_grads
(K = 2, S = 1, P = 0, input 2 x 4) the output extents are 1 x 3. -/
theorem C4_pool2d_output_extents :
    (∀ k s p b c hin win : Nat,
        (Pool2DOp.new k s p b c hin win).h_out = (hin + 2 * p - k) / s + 1 ∧
        (Pool2DOp.new k s p b c hin win).w_out = (win + 2 * p - k) / s + 1) ∧
    (Pool2DOp.new 2 1 0 1 1 2 4).h_out = 1 ∧
    (Pool2DOp.new 2 1 0 1 1 2 4).w_out = 3 := by
  exact ⟨fun k s p b c hin win => ⟨rfl, rfl⟩, by decide, by decide⟩

/-- Claim C5: for a non-empty collection of tensors with identical
shapes and identical strides, the stack forward produces a tensor whose
shape gains a leading axis of size n and whose payload is the in-order
concatenation of the inputs' physical data; the stack backward splits
grad_out into equal contiguous slabs — when every gradient buffer has
length L, buffer i accumulates exactly the slab of grad_out starting at
offset i * L. -/
theorem C5_stack_forward_backward :
    (∀ (uid : Nat) (t0 : DTensor) (rest : List DTensor),
        (∀ t ∈ t0 :: rest, t.shape = t0.shape ∧ t.strides = t0.strides) →
        try_stack uid (t0 :: rest) =
          some { id := uid
                 shape := (t0 :: rest).length :: t0.shape
                 strides := t0.data.length :: t0.strides
                 data := ((t0 :: rest).map (fun t => t.data)).flatten }) ∧
    (∀ (bufs : List (List ℚ)) (go : List ℚ) (L : Nat),
        (∀ b ∈ bufs, b.length = L) →
        ∀ i, i < bufs.length →
          (stack_backward bufs go).getD i [] =
            List.zipWith (· + ·) (bufs.getD i []) ((go.drop (i * L)).take L)) := by
  constructor
  · intro uid t0 rest h
    have h1 : (t0 :: rest).all (fun t => decide (t.shape = t0.shape)) = true :=
      List.all_eq_true.mpr fun t ht => decide_eq_true (h t ht).1
    have h2 : (t0 :: rest).all (fun t => decide (t.strides = t0.strides)) = true :=
      List.all_eq_true.mpr fun t ht => decide_eq_true (h t ht).2
    simp [try_stack, stack_forward, h1, h2]
  · intro bufs
    induction bufs with
    | nil => intro go L h i hi; cases hi
    | cons b bs ih =>
      intro go L h i hi
      have hb : b.length = L := h b (List.mem_cons_self b bs)
      cases i with
      | zero => simp [stack_backward, hb]
      | succ j =>
        have hrec := ih (go.drop b.length) L
          (fun x hx => h x (List.mem_cons_of_mem b hx)) j
          (Nat.lt_of_succ_lt_succ hi)
        simp only [stack_backward, List.getD_cons_succ]
        rw [hrec, hb, List.drop_drop]
        congr 2
        rw [Nat.succ_mul, Nat.add_comm]

/-- Claim C5, witness: stacking the two concrete (2,)-tensors with
payloads [1, 2] and [3, 4] concatenates the payloads under the new
leading axis, and slab 1 of the backward lands in buffer 1. -/
theorem C5_witness :
    try_stack 9 [⟨0, [2], [1], [1, 2]⟩, ⟨1, [2], [1], [3, 4]⟩] =
      some { id := 9, shape := [2, 2], strides := [2, 1],
             data := [1, 2, 3, 4] } ∧
    (stack_backward [[0, 0], [0, 0]] [1, 2, 3, 4]).getD 1 [] =
      List.zipWith (· + ·) ([[(0 : ℚ), 0], [0, 0]].getD 1 [])
        (([(1 : ℚ), 2, 3, 4].drop (1 * 2)).take 2) :=
  ⟨C5_stack_forward_backward.1 9 ⟨0, [2], [1], [1, 2]⟩ [⟨1, [2], [1], [3, 4]⟩]
      (by decide),
   C5_stack_forward_backward.2 [[0, 0], [0, 0]] [1, 2, 3, 4] 2 (by decide) 1
      (by decide)⟩

/-- Claim C6: stacking fails exactly when the collection is empty or
some input disagrees with the first input's shape or strides; it
succeeds for every collection of n ≥ 1 tensors of equal shape and equal
strides.  The failures are the asserts of try_stack (empty dim, shape
mismatch) and of the cpu kernel forward (stride mismatch), modelled as
none. -/
theorem C6_stack_error_conditions :
    ∀ (uid : Nat) (items : List DTensor),
      (try_stack uid items).isSome = true ↔
        ∃ t0 tl, items = t0 :: tl ∧
          ∀ t ∈ items, t.shape = t0.shape ∧ t.strides = t0.strides := by
  intro uid items
  cases items with
  | nil => simp [try_stack]
  | cons t0 tl =>
    constructor
    · intro h
      by_cases c1 : (t0 :: tl).all (fun t => decide (t.shape = t0.shape)) = true
      · by_cases c2 : (t0 :: tl).all (fun t => decide (t.strides = t0.strides)) = true
        · exact ⟨t0, tl, rfl, fun t ht =>
            ⟨of_decide_eq_true (List.all_eq_true.mp c1 t ht),
             of_decide_eq_true (List.all_eq_true.mp c2 t ht)⟩⟩
        · exfalso
          have hnone : try_stack uid (t0 :: tl) = none := by
            simp only [try_stack, stack_forward]
            rw [if_pos c1, if_neg c2]
          rw [hnone] at h
          simp at h
      · exfalso
        have hnone : try_stack uid (t0 :: tl) = none := by
          simp only [try_stack]
          rw [if_neg c1]
        rw [hnone] at h
        simp at h
    · rintro ⟨t0x, tlx, heq, hall⟩
      have ht0 : t0 = t0x := by injection heq
      subst ht0
      have c1 : (t0 :: tl).all (fun t => decide (t.shape = t0.shape)) = true :=
        List.all_eq_true.mpr fun t ht => decide_eq_true (hall t ht).1
      have c2 : (t0 :: tl).all (fun t => decide (t.strides = t0.strides)) = true :=
        List.all_eq_true.mpr fun t ht => decide_eq_true (hall t ht).2
      simp [try_stack, stack_forward, c1, c2]

/-- Claim C7, counterexample.  CopySlice requires the slice length to
equal the tensor's physical storage length, not the product of the shape
extents: on a broadcast (2, 3) view with a 3-element payload, copying a
3-element slice in or out succeeds although 3 is not the element count
6 = 2 * 3, and copying a 6-element slice fails. -/
theorem C7_counterexample_copy_physical_len :
    (copy_from bcast_view23 [4, 5, 6]).isSome = true ∧
    (copy_into bcast_view23 [0, 0, 0]).isSome = true ∧
    num_elements bcast_view23.shape = 6 ∧
    ([(4 : ℚ), 5, 6]).length ≠ num_elements bcast_view23.shape ∧
    copy_from bcast_view23 [1, 2, 3, 4, 5, 6] = none ∧
    copy_into bcast_view23 [0, 0, 0, 0, 0, 0] = none := by
  decide

/-- Claim C7, amended: constructing a tensor from a host vector succeeds
iff the vector's length equals the product of the shape's extents (and
the constructed tensor is contiguous, so its payload length equals its
element count), while copying a slice into or out of a tensor requires
the slice length to equal the tensor's physical storage length — which
coincides with the element count for contiguous tensors but not for
broadcast (stride-0) views. -/
theorem C7_amended_conversion_lengths :
    (∀ (uid : Nat) (src : List ℚ) (shape : List Nat),
        (try_tensor_from_vec uid src shape).isSome = true ↔
          src.length = num_elements shape) ∧
    (∀ (uid : Nat) (src : List ℚ) (shape : List Nat) (t : DTensor),
        try_tensor_from_vec uid src shape = some t →
        t.data.length = num_elements t.shape ∧
        t.strides = contiguous_strides t.shape) ∧
    (∀ (t : DTensor) (s : List ℚ),
        (copy_from t s).isSome = true ↔ t.data.length = s.length) ∧
    (∀ (t : DTensor) (dst : List ℚ),
        (copy_into t dst).isSome = true ↔ t.data.length = dst.length) := by
  refine ⟨?_, ?_, ?_, ?_⟩
  · intro uid src shape
    by_cases h : src.length = num_elements shape <;>
      simp [try_tensor_from_vec, h]
  · intro uid src shape t h
    by_cases hc : src.length = num_elements shape
    · have hs : try_tensor_from_vec uid src shape =
          some (tensor_from_host_buf uid shape src) := by
        unfold try_tensor_from_vec
        rw [if_neg (not_not_intro hc)]
      rw [hs] at h
      cases h
      exact ⟨by simpa [tensor_from_host_buf] using hc,
        by simp [tensor_from_host_buf]⟩
    · have hs : try_tensor_from_vec uid src shape = none := by
        unfold try_tensor_from_vec
        rw [if_pos hc]
      rw [hs] at h
      cases h
  · intro t s
    by_cases h : t.data.length = s.length <;> simp [copy_from, h]
  · intro t dst
    by_cases h : t.data.length = dst.length <;> simp [copy_into, h]

/-- Claim C7, amended, witness: a 6-element host vector builds a (2, 3)
tensor whose payload length equals its element count. -/
theorem C7_amended_witness :
    (try_tensor_from_vec 3 [1, 2, 3, 4, 5, 6] [2, 3]).isSome = true ∧
    (tensor_from_host_buf 3 [2, 3] [1, 2, 3, 4, 5, 6]).data.length =
      num_elements (tensor_from_host_buf 3 [2, 3] [1, 2, 3, 4, 5, 6]).shape :=
  ⟨(C7_amended_conversion_lengths.1 3 [1, 2, 3, 4, 5, 6] [2, 3]).mpr (by decide),
   (C7_amended_conversion_lengths.2.1 3 [1, 2, 3, 4, 5, 6] [2, 3]
      (tensor_from_host_buf 3 [2, 3] [1, 2, 3, 4, 5, 6]) (by decide)).1⟩

/-! ### Helper lemmas for the tape discipline -/

theorem lookup_alloc_self (g : GradMap) (id len : Nat) :
    (List.lookup id (alloc_grad g id len)).isSome = true := by
  unfold alloc_grad
  by_cases h : (List.lookup id g).isSome = true
  · rw [if_pos h]; exact h
  · rw [if_neg h]
    simp [List.lookup]

theorem lookup_alloc_mono (g : GradMap) (id len j : Nat)
    (h : (List.lookup j g).isSome = true) :
    (List.lookup j (alloc_grad g id len)).isSome = true := by
  unfold alloc_grad
  by_cases hc : (List.lookup id g).isSome = true
  · rw [if_pos hc]; exact h
  · rw [if_neg hc]
    by_cases hj : j = id
    · subst hj; simp [List.lookup]
    · have hb : (j == id) = false := beq_eq_false_iff_ne.mpr hj
      simp only [List.lookup, hb]
      exact h

theorem foldl_alloc_ops (items : List DTensor) (t : Tape) :
    (items.foldl try_alloc_grad t).ops = t.ops := by
  induction items generalizing t with
  | nil => rfl
  | cons x xs ih => simp [ih, try_alloc_grad]

theorem lookup_foldl_alloc (items : List DTensor) (t : Tape) (j : Nat)
    (h : j ∈ items.map (fun x => x.id) ∨ (List.lookup j t.grads).isSome = true) :
    (List.lookup j (items.foldl try_alloc_grad t).grads).isSome = true := by
  induction items generalizing t with
  | nil =>
    rcases h with h | h
    · simp at h
    · exact h
  | cons x xs ih =>
    rcases h with h | h
    · simp only [List.map_cons, List.mem_cons] at h
      rcases h with h | h
      · subst h
        exact ih (try_alloc_grad t x) (Or.inr (lookup_alloc_self t.grads x.id _))
      · exact ih (try_alloc_grad t x) (Or.inl h)
    · exact ih (try_alloc_grad t x) (Or.inr (lookup_alloc_mono t.grads x.id _ j h))

theorem try_stack_id (uid : Nat) (items : List DTensor) (out : DTensor)
    (h : try_stack uid items = some out) : out.id = uid := by
  cases items with
  | nil => cases h
  | cons t0 tl =>
    simp only [try_stack, stack_forward] at h
    split at h
    · split at h
      · cases h; rfl
      · cases h
    · cases h

theorem apply_op_tags (a : OpApp) (st : AutoState) (r : DTensor × AutoState)
    (h : apply_op a st = some r) :
    op_tags r.2.tape = op_tags st.tape ++ [r.1.id] ∧ r.1.id = st.uid := by
  cases a with
  | unary f d inp =>
    simp only [apply_op] at h
    injection h with h1
    subst h1
    exact ⟨by simp [unary_op_driver, add_backward_op, try_alloc_grad, op_tags], rfl⟩
  | binary f dl dr lhs rhs =>
    simp only [apply_op] at h
    injection h with h1
    subst h1
    exact ⟨by simp [binary_op_driver, add_backward_op, try_alloc_grad, op_tags], rfl⟩
  | reduce_sum inp =>
    simp only [apply_op] at h
    injection h with h1
    subst h1
    exact ⟨by simp [reduce_op_driver, add_backward_op, try_alloc_grad, op_tags], rfl⟩
  | reduce_max inp =>
    simp only [apply_op] at h
    injection h with h1
    subst h1
    exact ⟨by simp [reduce_op_driver, add_backward_op, try_alloc_grad, op_tags], rfl⟩
  | reduce_min inp =>
    simp only [apply_op] at h
    injection h with h1
    subst h1
    exact ⟨by simp [reduce_op_driver, add_backward_op, try_alloc_grad, op_tags], rfl⟩
  | pool_max k s p inp =>
    simp only [apply_op] at h
    injection h with h1
    subst h1
    exact ⟨by simp [pool_op_driver, add_backward_op, try_alloc_grad, op_tags], rfl⟩
  | stacked items =>
    simp only [apply_op, stack_op_driver] at h
    cases hts : try_stack st.uid items with
    | none => rw [hts] at h; cases h
    | some out =>
      rw [hts] at h
      injection h with h1
      subst h1
      refine ⟨?_, try_stack_id st.uid items out hts⟩
      simp [add_backward_op, try_alloc_grad, op_tags, foldl_alloc_ops]

theorem apply_op_grads (a : OpApp) (st : AutoState) (r : DTensor × AutoState)
    (h : apply_op a st = some r) :
    (∀ j ∈ a.input_ids, (List.lookup j r.2.tape.grads).isSome = true) ∧
    (List.lookup r.1.id r.2.tape.grads).isSome = true := by
  cases a with
  | unary f d inp =>
    simp only [apply_op] at h
    injection h with h1
    subst h1
    constructor
    · intro j hj
      simp only [OpApp.input_ids, List.mem_singleton] at hj
      subst hj
      exact lookup_alloc_mono _ _ _ _ (lookup_alloc_self _ _ _)
    · exact lookup_alloc_self _ _ _
  | binary f dl dr lhs rhs =>
    simp only [apply_op] at h
    injection h with h1
    subst h1
    constructor
    · intro j hj
      simp only [OpApp.input_ids, List.mem_cons, List.mem_singleton] at hj
      rcases hj with hj | hj | hj
      · subst hj
        exact lookup_alloc_mono _ _ _ _
          (lookup_alloc_mono _ _ _ _ (lookup_alloc_self _ _ _))
      · subst hj
        exact lookup_alloc_mono _ _ _ _ (lookup_alloc_self _ _ _)
      · cases hj
    · exact lookup_alloc_self _ _ _
  | reduce_sum inp =>
    simp only [apply_op] at h
    injection h with h1
    subst h1
    constructor
    · intro j hj
      simp only [OpApp.input_ids, List.mem_singleton] at hj
      subst hj
      exact lookup_alloc_mono _ _ _ _ (lookup_alloc_self _ _ _)
    · exact lookup_alloc_self _ _ _
  | reduce_max inp =>
    simp only [apply_op] at h
    injection h with h1
    subst h1
    constructor
    · intro j hj
      simp only [OpApp.input_ids, List.mem_singleton] at hj
      subst hj
      exact lookup_alloc_mono _ _ _ _ (lookup_alloc_self _ _ _)
    · exact lookup_alloc_self _ _ _
  | reduce_min inp =>
    simp only [apply_op] at h
    injection h with h1
    subst h1
    constructor
    · intro j hj
      simp only [OpApp.input_ids, List.mem_singleton] at hj
      subst hj
      exact lookup_alloc_mono _ _ _ _ (lookup_alloc_self _ _ _)
    · exact lookup_alloc_self _ _ _
  | pool_max k s p inp =>
    simp only [apply_op] at h
    injection h with h1
    subst h1
    constructor
    · intro j hj
      simp only [OpApp.input_ids, List.mem_singleton] at hj
      subst hj
      exact lookup_alloc_mono _ _ _ _ (lookup_alloc_self _ _ _)
    · exact lookup_alloc_self _ _ _
  | stacked items =>
    simp only [apply_op, stack_op_driver] at h
    cases hts : try_stack st.uid items with
    | none => rw [hts] at h; cases h
    | some out =>
      rw [hts] at h
      injection h with h1
      subst h1
      constructor
      · intro j hj
        simp only [OpApp.input_ids] at hj
        exact lookup_alloc_mono _ _ _ _
          (lookup_foldl_alloc items st.tape j (Or.inl hj))
      · exact lookup_alloc_self _ _ _

theorem backward_trace_aux (ops : List (Nat × (GradMap → GradMap)))
    (g : GradMap) (acc : List Nat) :
    (ops.foldl (fun acc2 op => (op.2 acc2.1, acc2.2 ++ [op.1])) (g, acc)).2 =
      acc ++ ops.map Prod.fst := by
  induction ops generalizing g acc with
  | nil => simp
  | cons o os ih => simp [ih]

/-- Claim C8: every modelled differentiable operation (unary, binary,
reduction, pooling, stack) appends exactly one backward closure to the
tape during its successful forward call, tagged with the fresh output
id, after preallocating the gradient slots of its inputs and output;
after a program of n successful ops the tape carries n more closures;
and backward executes exactly the recorded closures in reverse (LIFO)
order of their appends. -/
theorem C8_tape_discipline :
    (∀ (a : OpApp) (st : AutoState) (r : DTensor × AutoState),
        apply_op a st = some r →
        op_tags r.2.tape = op_tags st.tape ++ [r.1.id] ∧
        r.1.id = st.uid ∧
        (∀ j ∈ a.input_ids, (List.lookup j r.2.tape.grads).isSome = true) ∧
        (List.lookup r.1.id r.2.tape.grads).isSome = true) ∧
    (∀ (prog : List OpApp) (st stF : AutoState),
        apply_prog prog st = some stF →
        stF.tape.ops.length = st.tape.ops.length + prog.length) ∧
    (∀ t : Tape, (backward_run t).2 = (op_tags t).reverse ∧
        (backward_run t).2.length = t.ops.length) := by
  refine ⟨?_, ?_, ?_⟩
  · intro a st r h
    obtain ⟨h1, h2⟩ := apply_op_tags a st r h
    obtain ⟨h3, h4⟩ := apply_op_grads a st r h
    exact ⟨h1, h2, h3, h4⟩
  · intro prog
    induction prog with
    | nil =>
      intro st stF h
      cases h
      simp
    | cons a rest ih =>
      intro st stF h
      simp only [apply_prog] at h
      cases ha : apply_op a st with
      | none => rw [ha] at h; cases h
      | some r =>
        rw [ha] at h
        have hlen : r.2.tape.ops.length = st.tape.ops.length + 1 := by
          have := congrArg List.length (apply_op_tags a st r ha).1
          simpa [op_tags] using this
        have := ih r.2 stF h
        rw [this, hlen]
        simp [List.length_cons]
        omega
  · intro t
    constructor
    · unfold backward_run
      rw [backward_trace_aux t.ops.reverse t.grads []]
      simp [op_tags]
    · unfold backward_run
      rw [backward_trace_aux t.ops.reverse t.grads []]
      simp

/-- Claim C8, witness: one unary op (the identity function) applied on a
fresh tape appends exactly the closure tagged with the fresh output id
1, and backward on a two-closure tape runs both closures in reverse
order. -/
theorem C8_witness :
    op_tags ((unary_op_driver (fun q => q) (fun _ => 1)
        ⟨0, [2], [1], [1, 2]⟩ ⟨1, Tape.mk [] []⟩).2.tape) =
      op_tags (Tape.mk [] []) ++
        [(unary_op_driver (fun q => q) (fun _ => 1)
            ⟨0, [2], [1], [1, 2]⟩ ⟨1, Tape.mk [] []⟩).1.id] ∧
    (backward_run (Tape.mk [(5, fun g => g), (6, fun g => g)] [])).2 = [6, 5] :=
  ⟨(C8_tape_discipline.1
      (OpApp.unary (fun q => q) (fun _ => 1) ⟨0, [2], [1], [1, 2]⟩)
      ⟨1, Tape.mk [] []⟩
      (unary_op_driver (fun q => q) (fun _ => 1)
        ⟨0, [2], [1], [1, 2]⟩ ⟨1, Tape.mk [] []⟩) rfl).1,
   by
    have := (C8_tape_discipline.2.2 (Tape.mk [(5, fun g => g), (6, fun g => g)] [])).1
    simpa [op_tags] using this⟩

/-- Claim C9: permute's forward is a pure view — a fresh identity drawn
from the monotonic counter (hence distinct from the input's id), the
storage handle aliased from the input with nothing copied, and the shape
and strides with the permutation applied. -/
theorem C9_permute_pure_view :
    ∀ (uid : Nat) (inp : VTensor) (axes : List Nat),
      (permute_forward uid inp axes).1.storage = inp.storage ∧
      (permute_forward uid inp axes).1.shape = apply_perm axes inp.shape ∧
      (permute_forward uid inp axes).1.strides = apply_perm axes inp.strides ∧
      (permute_forward uid inp axes).1.id = uid ∧
      (permute_forward uid inp axes).2 = uid + 1 ∧
      (inp.id < uid → (permute_forward uid inp axes).1.id ≠ inp.id) := by
  intro uid inp axes
  refine ⟨rfl, rfl, rfl, rfl, rfl, ?_⟩
  intro h
  simp only [permute_forward]
  omega

/-- Claim C9, witness: permuting a concrete (2, 3) view with axis order
(1, 0) under counter 5 yields id 5, distinct from the input's id 0. -/
theorem C9_witness :
    (⟨0, 3, [2, 3], [3, 1]⟩ : VTensor).id < 5 ∧
    (permute_forward 5 ⟨0, 3, [2, 3], [3, 1]⟩ [1, 0]).1.id ≠
      (⟨0, 3, [2, 3], [3, 1]⟩ : VTensor).id :=
  ⟨by decide,
   (C9_permute_pure_view 5 ⟨0, 3, [2, 3], [3, 1]⟩ [1, 0]).2.2.2.2.2 (by decide)⟩

/-! ### Helper lemmas for the stride structure of stack outputs -/

theorem stack_forward_some (uid : Nat) (t0 : DTensor) (rest : List DTensor)
    (out : DTensor) (h : stack_forward uid (t0 :: rest) = some out) :
    ((t0 :: rest).all (fun t => decide (t.strides = t0.strides)) = true) ∧
    out = ⟨uid, (t0 :: rest).length :: t0.shape,
           t0.data.length :: t0.strides,
           ((t0 :: rest).map (fun t => t.data)).flatten⟩ := by
  simp only [stack_forward] at h
  split at h
  · next c =>
    cases h
    exact ⟨c, rfl⟩
  · cases h

theorem flatten_get_uniform (L : Nat) (ls : List (List ℚ))
    (h : ∀ l ∈ ls, l.length = L) (i o : Nat) (ho : o < L) :
    ls.flatten.get? (i * L + o) = (ls.get? i).bind (fun l => l.get? o) := by
  induction ls generalizing i with
  | nil => simp
  | cons l rest ih =>
    have hl : l.length = L := h l (List.mem_cons_self l rest)
    cases i with
    | zero =>
      simp only [Nat.zero_mul, Nat.zero_add, List.flatten_cons,
        List.get?_cons_zero]
      rw [List.get?_append (by rw [hl]; exact ho)]
      simp
    | succ j =>
      simp only [List.flatten_cons, List.get?_cons_succ]
      rw [List.get?_append_right (by rw [hl, Nat.succ_mul]; omega)]
      rw [hl]
      have he : (j + 1) * L + o - L = j * L + o := by
        rw [Nat.succ_mul]; omega
      rw [he]
      exact ih (fun x hx => h x (List.mem_cons_of_mem l hx)) j

/-- Claim C10: the tensor produced by stack carries the inputs' stride
structure rather than a fresh contiguous layout.  First conjunct: the
leading-axis stride is the physical data length of the first input and
the remaining strides are copied from it.  Second conjunct: on the
concrete broadcast views of the in-tree test
test_stack_with_all_broadcasted the leading stride is 3, not the
product 12 of the input shape's extents.  Third conjunct: logical reads
inside slab i of the output agree with logical reads of input i, so the
broadcast (stride-0) structure survives inside each slab.  Fourth
conjunct: for every pointwise derivative d and every pair of length-3
leaves, the leaf gradients of stacking the (4, 3) broadcast views under
a mean-of-f loss equal those of stacking the unbroadcast vectors. -/
theorem C10_stack_stride_structure :
    (∀ (uid : Nat) (t0 : DTensor) (rest : List DTensor) (out : DTensor),
        stack_forward uid (t0 :: rest) = some out →
        out.strides = t0.data.length :: t0.strides ∧
        out.shape = (t0 :: rest).length :: t0.shape) ∧
    (stack_forward 100 [bcast43 0 [1, 2, 3], bcast43 1 [4, 5, 6]] =
        some ⟨100, [2, 4, 3], [3, 0, 1], [1, 2, 3, 4, 5, 6]⟩ ∧
      (bcast43 0 [1, 2, 3]).data.length ≠
        num_elements (bcast43 0 [1, 2, 3]).shape) ∧
    (∀ (uid : Nat) (t0 : DTensor) (rest : List DTensor) (out : DTensor),
        stack_forward uid (t0 :: rest) = some out →
        (∀ t ∈ t0 :: rest, t.data.length = t0.data.length) →
        ∀ (i : Nat) (ht : i < (t0 :: rest).length) (idx : List Nat),
          offset_of t0.strides idx < t0.data.length →
          logical_get out (i :: idx) =
            logical_get ((t0 :: rest).get ⟨i, ht⟩) idx) ∧
    (∀ (d : ℚ → ℚ) (x0 x1 x2 y0 y1 y2 : ℚ),
        bcast_stack_leaf_grads d [x0, x1, x2] [y0, y1, y2] =
          plain_stack_leaf_grads d [x0, x1, x2] [y0, y1, y2]) := by
  refine ⟨?_, ⟨by decide, by decide⟩, ?_, ?_⟩
  · intro uid t0 rest out h
    obtain ⟨-, rfl⟩ := stack_forward_some uid t0 rest out h
    exact ⟨rfl, rfl⟩
  · intro uid t0 rest out h hlen i ht idx hoff
    obtain ⟨hall, rfl⟩ := stack_forward_some uid t0 rest out h
    have hmem : (t0 :: rest).get ⟨i, ht⟩ ∈ t0 :: rest := List.get_mem _ _ ht
    have hstr : ((t0 :: rest).get ⟨i, ht⟩).strides = t0.strides :=
      of_decide_eq_true (List.all_eq_true.mp hall _ hmem)
    have hdl : ((t0 :: rest).get ⟨i, ht⟩).data.length = t0.data.length :=
      hlen _ hmem
    simp only [logical_get]
    have hof : offset_of (t0.data.length :: t0.strides) (i :: idx) =
        i * t0.data.length + offset_of t0.strides idx := by
      simp only [offset_of, List.zipWith_cons_cons, List.sum_cons]
      ring
    rw [hof]
    rw [flatten_get_uniform t0.data.length ((t0 :: rest).map (fun t => t.data))
      (by
        intro l hlm
        obtain ⟨x, hx, rfl⟩ := List.mem_map.mp hlm
        exact hlen x hx)
      i (offset_of t0.strides idx) hoff]
    rw [List.get?_map, List.get?_eq_get ht]
    have hstr2 : (t0 :: rest)[i].strides = t0.strides := hstr
    simp [hstr2]
  · intro d x0 x1 x2 y0 y1 y2
    have h1 : stack_forward 100 [bcast43 0 [x0, x1, x2], bcast43 1 [y0, y1, y2]] =
        some ⟨100, [2, 4, 3], [3, 0, 1], [x0, x1, x2, y0, y1, y2]⟩ := by
      with_unfolding_all rfl
    have h2 : stack_forward 100 [plain3 0 [x0, x1, x2], plain3 1 [y0, y1, y2]] =
        some ⟨100, [2, 3], [3, 1], [x0, x1, x2, y0, y1, y2]⟩ := by
      with_unfolding_all rfl
    simp only [bcast_stack_leaf_grads, plain_stack_leaf_grads, h1, h2]
    simp only [mean_f_phys_grad, enum_idx, num_elements, offset_of]
    norm_num [List.range_succ, stack_backward, List.zipWith]
    ring_nf
    norm_num

/-- Claim C10, witness: the stacked broadcast views of the in-tree test
carry strides (3, 0, 1) — leading stride 3, the physical payload length
of one input — and shape (2, 4, 3). -/
theorem C10_witness :
    (⟨100, [2, 4, 3], [3, 0, 1], [1, 2, 3, 4, 5, 6]⟩ : DTensor).strides =
      (bcast43 0 [1, 2, 3]).data.length :: (bcast43 0 [1, 2, 3]).strides ∧
    (⟨100, [2, 4, 3], [3, 0, 1], [1, 2, 3, 4, 5, 6]⟩ : DTensor).shape =
      ([bcast43 0 [1, 2, 3], bcast43 1 [4, 5, 6]]).length ::
        (bcast43 0 [1, 2, 3]).shape :=
  C10_stack_stride_structure.1 100 (bcast43 0 [1, 2, 3]) [bcast43 1 [4, 5, 6]]
    ⟨100, [2, 4, 3], [3, 0, 1], [1, 2, 3, 4, 5, 6]⟩ (by decide)

end Dfdx
